import Mathlib

/-!
Shallow embedding of the BLE RSSI error-estimation core
(`error-estimation/ble_error_estimation/CppVersion`): the adaptive Kalman
filter (`kalman.cpp`), the statistics kernel (`utils.cpp`), the anchor/tag
data model (`models.cpp`) and the fix evaluator / update orchestrator
(`metrics.cpp`).

Float values are modelled as exact rationals (the model evaluates the
arithmetic of the source exactly, without float rounding).  The handful of
transcendental library calls the source makes (`sqrt`, `log10`, `lgamma`,
`log`, `log1p`, `exp`) are abstracted as function parameters of type
`ℚ → ℚ`, bundled in `FloatFns`; theorems quantify over them and concrete
evaluations only ever consult them at arguments whose mathematical value is
rational and exact (for example `sqrt 0 = 0`, `sqrt 1 = 1`, `log10 1 = 0`),
which is stated as a hypothesis where it matters.
-/

namespace BLE

/-- Bundle of the transcendental float functions the source calls; each is
abstracted as an exact function on rationals. -/
structure FloatFns where
  sqrtQ : ℚ → ℚ
  log10 : ℚ → ℚ
  lgammaQ : ℚ → ℚ
  logQ : ℚ → ℚ
  log1pQ : ℚ → ℚ
  expQ : ℚ → ℚ

/-- Interpretation where every transcendental call returns 0 except `sqrt`,
which is the identity.  Used for concrete runs that only consult `sqrt` at
`0` or `1` and `log10` at `1`, where these are the true float values. -/
def F0 : FloatFns :=
  { sqrtQ := id, log10 := fun _ => 0, lgammaQ := fun _ => 0,
    logQ := fun _ => 0, log1pQ := fun _ => 0, expQ := fun _ => 0 }

/-! ### utils.cpp -/

/-- The float literal `PI = 3.14159265358979323846f` of `utils.cpp`, as the
exact decimal it is written as. -/
def PI : ℚ := 314159265358979323846 / 100000000000000000000

/-- Embedding of `logpdf_student_t(float z, int v)` from `utils.cpp`.
The source passes the C++ *integer* quotients `(v + 1) / 2` and `v / 2` to
`std::lgamma`, while the last term uses the float quotient
`(v + 1) / 2.0f`; the embedding reproduces that asymmetry exactly.  For the
`v ≥ 2` used by the program, C++ truncating division agrees with `Int.div`
here via `Int.tdiv`. -/
def logpdf_student_t (F : FloatFns) (z : ℚ) (v : ℤ) : ℚ :=
  let a_1 := F.lgammaQ ((Int.tdiv (v + 1) 2 : ℤ) : ℚ)
  let a_2 := F.lgammaQ ((Int.tdiv v 2 : ℤ) : ℚ)
  let a_3 := (1/2) * F.logQ ((v : ℚ) * PI)
  let a_4 := (((v : ℚ) + 1) / 2) * F.log1pQ ((z * z) / (v : ℚ))
  a_1 - a_2 - a_3 - a_4

/-- Value that the claimed mathematical formula of the spec gives:
modelled from the spec's words "logΓ((v+1)/2) − logΓ(v/2) − ½·log(v·π) −
((v+1)/2)·log1p(z²/v)" with `(v+1)/2` and `v/2` the exact rational
quotients. -/
def logpdf_student_t_spec (F : FloatFns) (z : ℚ) (v : ℤ) : ℚ :=
  F.lgammaQ (((v : ℚ) + 1) / 2) - F.lgammaQ ((v : ℚ) / 2)
    - (1/2) * F.logQ ((v : ℚ) * PI)
    - (((v : ℚ) + 1) / 2) * F.log1pQ ((z * z) / (v : ℚ))

/-- Linear interpolation step of `cep95_from_conf`. -/
def interp (x0 y0 x1 y1 p : ℚ) : ℚ :=
  y0 + (p - x0) / (x1 - x0) * (y1 - y0)

/-- Embedding of `cep95_from_conf(float p_conf)` from `utils.cpp` over the
table `Calibration::CEP95_TABLE` of `config.h`.  The chain of `if`s unrolls
the source's loop, which breaks at the first index `i` with
`table[i+1].first > p_conf`; the loop is only reached when
`1/20 < p < 49/50`, in which case the final branch corresponds to `i = 6`. -/
def cep95_from_conf (p : ℚ) : ℚ :=
  if p ≤ 1/20 then 37/5
  else if 49/50 ≤ p then 9/10
  else if 17/100 > p then interp (1/20) (37/5) (17/100) (61/10) p
  else if 43/100 > p then interp (17/100) (61/10) (43/100) (43/10) p
  else if 4/5 > p then interp (43/100) (43/10) (4/5) (5/2) p
  else if 17/20 > p then interp (4/5) (5/2) (17/20) 2 p
  else if 9/10 > p then interp (17/20) 2 (9/10) (8/5) p
  else if 19/20 > p then interp (9/10) (8/5) (19/20) (6/5) p
  else interp (19/20) (6/5) (49/50) (9/10) p

/-- Embedding of `R3_distance` from `utils.cpp`. -/
def R3_distance (F : FloatFns) (a b : ℚ × ℚ × ℚ) : ℚ :=
  F.sqrtQ ((a.1 - b.1) ^ 2 + (a.2.1 - b.2.1) ^ 2 + (a.2.2 - b.2.2) ^ 2)

/-! ### kalman.cpp -/

/-- Mutable state of `KalmanFilter` (`kalman.h`): process noise `Q`,
covariance `P`, reference distance `d_0`, measurement noise `sigma`, and
the two rolling windows. -/
structure KFState where
  Q00 : ℚ
  Q01 : ℚ
  Q10 : ℚ
  Q11 : ℚ
  P00 : ℚ
  P01 : ℚ
  P10 : ℚ
  P11 : ℚ
  d_0 : ℚ
  sigma : ℚ
  residuals : List ℚ
  rssi_vals : List ℚ
deriving DecidableEq

/-- Initial `KalmanFilter` state from the in-class initializers of
`kalman.h`: `Q = diag(0.0025², 0.0001²)`, `P = diag(1, 0.1)`, `d_0 = 1`,
`sigma = 4`, empty windows. -/
def KFState.init : KFState :=
  { Q00 := (1/400) ^ 2, Q01 := 0, Q10 := 0, Q11 := (1/10000) ^ 2,
    P00 := 1, P01 := 0, P10 := 0, P11 := 1/10,
    d_0 := 1, sigma := 4, residuals := [], rssi_vals := [] }

/-- Push-back followed by the source's trim
`if (buf.size() > max_buffer) buf.erase(buf.begin())` with
`max_buffer = 50`. -/
def pushTrim (l : List ℚ) (x : ℚ) : List ℚ :=
  let l2 := l ++ [x]
  if 50 < l2.length then l2.tail else l2

/-- Population variance loop shared by `computeResidualVariance` and
`computeRSSIStdDev`: mean, then sum of squared deviations divided by the
size. -/
def varianceOf (l : List ℚ) : ℚ :=
  let mean := l.sum / (l.length : ℚ)
  ((l.map fun r => (r - mean) ^ 2).sum) / (l.length : ℚ)

/-- Embedding of `KalmanFilter::computeResidualVariance` (reads the given
residual window; `min_required_points = 5`). -/
def computeResidualVariance (residuals : List ℚ) : ℚ :=
  if residuals.length < 5 then (1/400) ^ 2 else varianceOf residuals

/-- Embedding of `KalmanFilter::computeRSSIStdDev` (reads the given RSSI
window; `min_required_points = 5`). -/
def computeRSSIStdDev (F : FloatFns) (rssi_vals : List ℚ) : ℚ :=
  if rssi_vals.length < 5 then 4 else F.sqrtQ (varianceOf rssi_vals)

/-- Result of one `sequence_step`: the updated filter state and the
returned `(RSSI0, n)` pair. -/
structure StepResult where
  state : KFState
  rssi0 : ℚ
  n : ℚ
deriving DecidableEq

/-- Embedding of `KalmanFilter::sequence_step(RSSI0_i, n_i, r_val, d_val)`
from `kalman.cpp`, in the source's statement order: push the RSSI value and
trim; adapt `sigma` if the (post-push) RSSI window has ≥ 5 samples; adapt
`Q[0][0]`, `Q[1][1]` if the (pre-push) residual window has ≥ 5 samples;
predict `P += Q`; form `H = [1, X]` with `X = −10·log10(max(d, 1e−6)/d_0)`;
compute the residual and push it; innovation `S`, gain `K`, state update and
the `(I − K·H)·P` covariance update (`alpha = 0.1`, `beta = 0.8`). -/
def sequence_step (F : FloatFns) (s : KFState)
    (RSSI0_i n_i r_val d_val : ℚ) : StepResult :=
  let rssi_vals' := pushTrim s.rssi_vals r_val
  let sigma' := if 5 ≤ rssi_vals'.length
    then (4/5) * computeRSSIStdDev F rssi_vals' else s.sigma
  let resid_var := computeResidualVariance s.residuals
  let Q00' := if 5 ≤ s.residuals.length then (1/10) * resid_var else s.Q00
  let Q11' := if 5 ≤ s.residuals.length then (1/10) * (resid_var / 100) else s.Q11
  let P00 := s.P00 + Q00'
  let P01 := s.P01 + s.Q01
  let P10 := s.P10 + s.Q10
  let P11 := s.P11 + Q11'
  let safe_d_val := max d_val (1/1000000)
  let X := (-10) * F.log10 (safe_d_val / s.d_0)
  let r_predict := 1 * RSSI0_i + X * n_i
  let resid := r_val - r_predict
  let residuals' := pushTrim s.residuals resid
  let S := 1 * (P00 * 1 + P01 * X) + X * (P10 * 1 + P11 * X) + sigma' ^ 2
  let K0 := (P00 * 1 + P01 * X) / S
  let K1 := (P10 * 1 + P11 * X) / S
  let x0 := RSSI0_i + K0 * resid
  let x1 := n_i + K1 * resid
  let KH00 := K0 * 1
  let KH01 := K0 * X
  let KH10 := K1 * 1
  let KH11 := K1 * X
  let nP00 := (1 - KH00) * P00 + (-KH01) * P10
  let nP01 := (1 - KH00) * P01 + (-KH01) * P11
  let nP10 := (-KH10) * P00 + (1 - KH11) * P10
  let nP11 := (-KH10) * P01 + (1 - KH11) * P11
  { state := { s with
      Q00 := Q00', Q11 := Q11',
      P00 := nP00, P01 := nP01, P10 := nP10, P11 := nP11,
      sigma := sigma', residuals := residuals', rssi_vals := rssi_vals' },
    rssi0 := x0, n := x1 }

/-! ### models.cpp -/

/-- Embedding of the `Anchor` class of `models.h`/`models.cpp`. -/
structure Anchor where
  mac_address : String
  coord : ℚ × ℚ × ℚ
  ewma : ℚ
  last_seen : ℚ
  RSSI_0 : ℚ
  n : ℚ
  kalman : KFState
deriving DecidableEq

/-- The `Anchor` constructor: in-class initializers `ewma = 1.0`,
`RSSI_0 = -59.0`, `n = 2.0`, fresh Kalman filter; `last_seen` set to the
given timestamp. -/
def Anchor.init (mac : String) (coordinate : ℚ × ℚ × ℚ) (timestamp : ℚ) : Anchor :=
  { mac_address := mac, coord := coordinate, ewma := 1, last_seen := timestamp,
    RSSI_0 := -59, n := 2, kalman := KFState.init }

/-- Embedding of `Anchor::update_health(z, now, LAMBDA)`:
`ewma ← LAMBDA·z² + (1−LAMBDA)·ewma`, `last_seen ← now`.  The default
`LAMBDA` is `Calibration::LAMBDA_EWMA = 0.05`, passed explicitly as `1/20`
at call sites. -/
def Anchor.update_health (a : Anchor) (z now LAMBDA : ℚ) : Anchor :=
  { a with ewma := LAMBDA * z ^ 2 + (1 - LAMBDA) * a.ewma, last_seen := now }

/-- Embedding of `Anchor::update_parameters(measured_rssi,
estimated_distance)`: one Kalman `sequence_step` on the anchor's own filter,
whose returned pair is assigned to `RSSI_0` and `n` unconditionally. -/
def Anchor.update_parameters (F : FloatFns) (a : Anchor)
    (measured_rssi estimated_distance : ℚ) : Anchor :=
  let kaloutpt := sequence_step F a.kalman a.RSSI_0 a.n measured_rssi estimated_distance
  { a with RSSI_0 := kaloutpt.rssi0, n := kaloutpt.n, kalman := kaloutpt.state }

/-- Embedding of the `Tag` class: MAC, estimated position, and the RSSI
map, modelled as an association list (the `unordered_map` has unique
keys). -/
structure Tag where
  mac_address : String
  est_coord : ℚ × ℚ × ℚ
  rssi_readings : List (String × ℚ)
deriving DecidableEq

/-- Association-list lookup standing for `unordered_map::find` /
`unordered_map::at` on the RSSI map. -/
def lookupRssi : List (String × ℚ) → String → Option ℚ
  | [], _ => none
  | p :: rest, mac => if p.1 = mac then some p.2 else lookupRssi rest mac

/-- Total variant of `unordered_map::at` for contexts where the source has
already established that the key is present. -/
def rssiOf (readings : List (String × ℚ)) (mac : String) : ℚ :=
  (lookupRssi readings mac).getD 0

/-- Exact value of `std::numeric_limits<float>::lowest()`, the seed of the
source's max-RSSI fold. -/
def floatLowest : ℚ := -340282346638528859811704183484516925440

/-- The `max_rssi` loop of `get_significant_anchors` and of
`update_anchors_from_tag_data`: running maximum of the map's values,
seeded with `lowest()`. -/
def maxRssi (readings : List (String × ℚ)) : ℚ :=
  readings.foldl (fun m p => if p.2 > m then p.2 else m) floatLowest

/-- Embedding of `PathLossModel` (`models.h`): constants `d_0 = 1.0`,
`sigma = 4.0`. -/
structure PathLossModel where
  d_0 : ℚ
  sigma : ℚ
deriving DecidableEq

/-- The `PathLossModel` default constructor. -/
def PathLossModel.init : PathLossModel := { d_0 := 1, sigma := 4 }

/-- Embedding of `PathLossModel::mu`: `RSSI_0 − 10·n·log10(safe_dist/d_0)`
with `safe_dist = max(est_dist, 1e-6)`. -/
def PathLossModel.mu (F : FloatFns) (m : PathLossModel)
    (RSSI_0 n est_dist : ℚ) : ℚ :=
  let safe_dist := max est_dist (1/1000000)
  RSSI_0 - 10 * n * F.log10 (safe_dist / m.d_0)

/-- Embedding of `PathLossModel::z`: `(rssi_freq − mu) / sigma`. -/
def PathLossModel.z (F : FloatFns) (m : PathLossModel)
    (rssi_freq RSSI_0 n est_dist : ℚ) : ℚ :=
  (rssi_freq - m.mu F RSSI_0 n est_dist) / m.sigma

/-! ### metrics.cpp -/

/-- Embedding of `TagSystem` (`metrics.h`): one tag plus the path-loss
model. -/
structure TagSystem where
  tag : Tag
  model : PathLossModel
deriving DecidableEq

/-- The filter condition of `get_significant_anchors`: present in the RSSI
map, RSSI within 10 dB of the strongest reading, and
`ewma < Calibration::EWMA_THRESHOLD = 8`. -/
def sigCond (readings : List (String × ℚ)) (max_rssi : ℚ) (a : Anchor) : Bool :=
  match lookupRssi readings a.mac_address with
  | some r => decide (max_rssi - 10 ≤ r) && decide (a.ewma < 8)
  | none => false

/-- The comparator key of the `std::sort` call: an anchor's RSSI reading. -/
def sortKey (readings : List (String × ℚ)) (a : Anchor) : ℚ :=
  rssiOf readings a.mac_address

/-- Embedding of `TagSystem::get_significant_anchors(anch_list, max_n)`:
early return on an empty RSSI map; filter by `sigCond`; sort by RSSI
descending (the source's `std::sort` with comparator `rssi(a1) > rssi(a2)`
produces some non-increasing arrangement — `insertionSort` with the
non-strict reverse order is one such arrangement); truncate to `max_n`
(default `Calibration::MAX_SIGNIFICANT_ANCHORS = 5`). -/
def TagSystem.get_significant_anchors (ts : TagSystem)
    (anch_list : List Anchor) (max_n : ℕ) : List Anchor :=
  let rssi_dict := ts.tag.rssi_readings
  if rssi_dict = [] then []
  else
    let max_rssi := maxRssi rssi_dict
    let keep := anch_list.filter (sigCond rssi_dict max_rssi)
    let sorted := List.insertionSort
      (fun a1 a2 => sortKey rssi_dict a2 ≤ sortKey rssi_dict a1) keep
    sorted.take max_n

/-- Embedding of `TagSystem::distances(anch_list)`: the significant anchors
paired with their Euclidean distance to the tag's estimated position. -/
def TagSystem.distances (F : FloatFns) (ts : TagSystem)
    (anch_list : List Anchor) : List (Anchor × ℚ) :=
  (ts.get_significant_anchors anch_list 5).map fun a =>
    (a, R3_distance F a.coord ts.tag.est_coord)

/-- Embedding of `TagSystem::z_vals(anch_list)`: each significant anchor
paired with `model.z(rssi, RSSI_0, n, dist)` for its own current
parameters. -/
def TagSystem.z_vals (F : FloatFns) (ts : TagSystem)
    (anch_list : List Anchor) : List (Anchor × ℚ) :=
  (ts.distances F anch_list).map fun p =>
    (p.1, ts.model.z F (rssiOf ts.tag.rssi_readings p.1.mac_address)
      p.1.RSSI_0 p.1.n p.2)

/-- Per-anchor weight of the confidence score:
`1 / (1 + ewma + z²)`. -/
def anchorWeight (a : Anchor) (z_val : ℚ) : ℚ :=
  1 / (1 + a.ewma + z_val ^ 2)

/-- The `total_weight` accumulator of `TagSystem::confidence_score`. -/
def TagSystem.total_weight (F : FloatFns) (ts : TagSystem)
    (anch_list : List Anchor) : ℚ :=
  ((ts.z_vals F anch_list).map fun p => anchorWeight p.1 p.2).sum

/-- The `weighted_sig` accumulator of `TagSystem::confidence_score`. -/
def TagSystem.weighted_sig (F : FloatFns) (ts : TagSystem)
    (anch_list : List Anchor) (v : ℤ) : ℚ :=
  ((ts.z_vals F anch_list).map fun p =>
    anchorWeight p.1 p.2 * logpdf_student_t F p.2 v).sum

/-- Embedding of `TagSystem::confidence_score(anch_list, v, scale)`:
returns 0 on an empty z-value map, otherwise
`exp((weighted_sig / total_weight) / scale)`. -/
def TagSystem.confidence_score (F : FloatFns) (ts : TagSystem)
    (anch_list : List Anchor) (v : ℤ) (scale : ℚ) : ℚ :=
  if ts.z_vals F anch_list = [] then 0
  else F.expQ ((ts.weighted_sig F anch_list v / ts.total_weight F anch_list) / scale)

/-- Embedding of `TagSystem::error_radius(anch_list)`:
`cep95_from_conf(confidence_score(anch_list))` with the defaults `v = 5`,
`scale = 2`. -/
def TagSystem.error_radius (F : FloatFns) (ts : TagSystem)
    (anch_list : List Anchor) : ℚ :=
  cep95_from_conf (ts.confidence_score F anch_list 5 2)

/-- The admission gate of the orchestrator's health-update loop: reject
when `time_since_last_seen > T_vis` or `max_rssi − rssi > deltaR`, where
`time_since_last_seen = now − last_seen` if `last_seen ≠ 0`, else 0. -/
def admissionGate (readings : List (String × ℚ))
    (now deltaR T_vis max_rssi : ℚ) (a : Anchor) : Bool :=
  let rssi := rssiOf readings a.mac_address
  let rssi_delta := max_rssi - rssi
  let time_since_last_seen := if a.last_seen ≠ 0 then now - a.last_seen else 0
  !(decide (T_vis < time_since_last_seen) || decide (deltaR < rssi_delta))

/-- Embedding of `update_anchors_from_tag_data(anch_list, inpt_tag,
inpt_model, now, deltaR, T_vis)` from `metrics.cpp`.  Phase 1 runs
`update_parameters` on every significant anchor (RSSI from the fix,
distance from the pre-computed distance map, which depends only on the
immutable coordinates).  Phase 2 recomputes `z_vals` on the *updated*
anchors and runs `update_health` on every anchor of that map that passes
the admission gate.  The source mutates anchors through pointers keyed (via
the `std::hash<Anchor*>`/`std::equal_to<Anchor*>` specializations) by MAC
address; the embedding correspondingly updates list entries by MAC. -/
def update_anchors_from_tag_data (F : FloatFns) (anch_list : List Anchor)
    (inpt_tag : Tag) (inpt_model : PathLossModel)
    (now deltaR T_vis : ℚ) : List Anchor :=
  let moment_system : TagSystem := { tag := inpt_tag, model := inpt_model }
  let rssi_dict := inpt_tag.rssi_readings
  if rssi_dict = [] then anch_list
  else
    let sigMacs := (moment_system.get_significant_anchors anch_list 5).map
      Anchor.mac_address
    let l1 := anch_list.map fun a =>
      if a.mac_address ∈ sigMacs then
        a.update_parameters F (rssiOf rssi_dict a.mac_address)
          (R3_distance F a.coord inpt_tag.est_coord)
      else a
    let z_dict := moment_system.z_vals F l1
    let max_rssi := maxRssi rssi_dict
    l1.map fun a =>
      match z_dict.find? (fun p => p.1.mac_address == a.mac_address) with
      | none => a
      | some p =>
        if admissionGate rssi_dict now deltaR T_vis max_rssi a then
          a.update_health p.2 now (1/20)
        else a

/-! ### Support lemmas -/

/-- With an empty RSSI map the selection condition rejects every anchor. -/
theorem sigCond_nil (m : ℚ) (a : Anchor) : sigCond [] m a = false := rfl

/-- The significant-anchor list is the truncated descending sort of the
filtered candidate list (also through the source's empty-map early
return). -/
theorem sig_eq (ts : TagSystem) (l : List Anchor) (n : ℕ) :
    ts.get_significant_anchors l n =
      (List.insertionSort
        (fun a1 a2 => sortKey ts.tag.rssi_readings a2 ≤ sortKey ts.tag.rssi_readings a1)
        (l.filter (sigCond ts.tag.rssi_readings (maxRssi ts.tag.rssi_readings)))).take n := by
  unfold TagSystem.get_significant_anchors
  dsimp only
  split_ifs with h
  · rw [h]
    have hf : l.filter (sigCond [] (maxRssi [])) = [] :=
      List.filter_eq_nil_iff.mpr (fun a _ => by simp [sigCond_nil])
    rw [hf]
    simp [List.insertionSort]
  · rfl

/-- Anchors in the significant list come from the filtered candidate
list. -/
theorem sig_subset_filter (ts : TagSystem) (l : List Anchor) (n : ℕ) :
    ∀ a ∈ ts.get_significant_anchors l n,
      a ∈ l.filter (sigCond ts.tag.rssi_readings (maxRssi ts.tag.rssi_readings)) := by
  intro a ha
  rw [sig_eq] at ha
  exact (List.perm_insertionSort _ _).mem_iff.mp ((List.take_sublist _ _).mem ha)

/-- Unfolded meaning of the selection condition. -/
theorem sigCond_iff (readings : List (String × ℚ)) (m : ℚ) (a : Anchor) :
    sigCond readings m a = true ↔
      (∃ r, lookupRssi readings a.mac_address = some r ∧ m - 10 ≤ r) ∧ a.ewma < 8 := by
  unfold sigCond
  cases h : lookupRssi readings a.mac_address with
  | none => simp [h]
  | some r => simp [h]

/-- Algebraic form of the interpolation step with the constant slope
factored out. -/
theorem interp_eq (x0 y0 x1 y1 p : ℚ) :
    interp x0 y0 x1 y1 p = y0 + (p - x0) * ((y1 - y0) / (x1 - x0)) := by
  unfold interp
  ring

/-- Antitonicity combinator for an `if c > x` split: if both branches are
antitone and they agree suitably at the break point, the combined function
is antitone. -/
theorem ite_lt_antitone (b : ℚ) {f g : ℚ → ℚ}
    (hf : ∀ x y, x ≤ y → f y ≤ f x)
    (hg : ∀ x y, x ≤ y → g y ≤ g x)
    (hfg : g b ≤ f b) :
    ∀ x y, x ≤ y → (if b > y then f y else g y) ≤ (if b > x then f x else g x) := by
  intro x y hxy
  by_cases hx : b > x <;> by_cases hy : b > y
  · rw [if_pos hx, if_pos hy]
    exact hf x y hxy
  · rw [if_pos hx, if_neg hy]
    exact le_trans (hg b y (le_of_not_lt hy)) (le_trans hfg (hf x b (le_of_lt hx)))
  · exact absurd (lt_of_le_of_lt hxy hy) hx
  · rw [if_neg hx, if_neg hy]
    exact hg x y hxy

/-- Antitonicity combinator for an `if b ≤ x` split with a constant left
branch. -/
theorem ite_ge_antitone (b k : ℚ) {g : ℚ → ℚ}
    (hg : ∀ x y, x ≤ y → g y ≤ g x)
    (hk : k ≤ g b) :
    ∀ x y, x ≤ y → (if b ≤ y then k else g y) ≤ (if b ≤ x then k else g x) := by
  intro x y hxy
  by_cases hx : b ≤ x <;> by_cases hy : b ≤ y
  · rw [if_pos hx, if_pos hy]
  · exact absurd (le_trans hx hxy) hy
  · rw [if_neg hx, if_pos hy]
    exact le_trans hk (hg x b (le_of_not_le hx))
  · rw [if_neg hx, if_neg hy]
    exact hg x y hxy

/-- Antitonicity combinator for an `if x ≤ b` split with a constant left
branch. -/
theorem ite_le_antitone (b k : ℚ) {g : ℚ → ℚ}
    (hg : ∀ x y, x ≤ y → g y ≤ g x)
    (hk : g b ≤ k) :
    ∀ x y, x ≤ y → (if y ≤ b then k else g y) ≤ (if x ≤ b then k else g x) := by
  intro x y hxy
  by_cases hx : x ≤ b <;> by_cases hy : y ≤ b
  · rw [if_pos hx, if_pos hy]
  · rw [if_pos hx, if_neg hy]
    exact le_trans (hg b y (le_of_not_le hy)) hk
  · exact absurd (le_trans hxy hy) hx
  · rw [if_neg hx, if_neg hy]
    exact hg x y hxy

/-- Monotonicity of the CEP95 lookup: larger confidence never yields a
larger radius. -/
theorem cep95_mono (p q : ℚ) (hpq : p ≤ q) :
    cep95_from_conf q ≤ cep95_from_conf p := by
  have a0 : ∀ x y : ℚ, x ≤ y → interp (1/20) (37/5) (17/100) (61/10) y ≤ interp (1/20) (37/5) (17/100) (61/10) x := by
    intro x y h
    simp only [interp_eq]
    norm_num
    linarith
  have a1 : ∀ x y : ℚ, x ≤ y → interp (17/100) (61/10) (43/100) (43/10) y ≤ interp (17/100) (61/10) (43/100) (43/10) x := by
    intro x y h
    simp only [interp_eq]
    norm_num
    linarith
  have a2 : ∀ x y : ℚ, x ≤ y → interp (43/100) (43/10) (4/5) (5/2) y ≤ interp (43/100) (43/10) (4/5) (5/2) x := by
    intro x y h
    simp only [interp_eq]
    norm_num
    linarith
  have a3 : ∀ x y : ℚ, x ≤ y → interp (4/5) (5/2) (17/20) 2 y ≤ interp (4/5) (5/2) (17/20) 2 x := by
    intro x y h
    simp only [interp_eq]
    norm_num
    linarith
  have a4 : ∀ x y : ℚ, x ≤ y → interp (17/20) 2 (9/10) (8/5) y ≤ interp (17/20) 2 (9/10) (8/5) x := by
    intro x y h
    simp only [interp_eq]
    norm_num
    linarith
  have a5 : ∀ x y : ℚ, x ≤ y → interp (9/10) (8/5) (19/20) (6/5) y ≤ interp (9/10) (8/5) (19/20) (6/5) x := by
    intro x y h
    simp only [interp_eq]
    norm_num
    linarith
  have a6 : ∀ x y : ℚ, x ≤ y → interp (19/20) (6/5) (49/50) (9/10) y ≤ interp (19/20) (6/5) (49/50) (9/10) x := by
    intro x y h
    simp only [interp_eq]
    norm_num
    linarith
  have h56 := ite_lt_antitone (19/20) a5 a6 (by norm_num [interp_eq])
  have h46 := ite_lt_antitone (9/10) a4 h56 (by norm_num [interp_eq])
  have h36 := ite_lt_antitone (17/20) a3 h46 (by norm_num [interp_eq])
  have h26 := ite_lt_antitone (4/5) a2 h36 (by norm_num [interp_eq])
  have h16 := ite_lt_antitone (43/100) a1 h26 (by norm_num [interp_eq])
  have h06 := ite_lt_antitone (17/100) a0 h16 (by norm_num [interp_eq])
  have hmid := ite_ge_antitone (49/50) (9/10) h06 (by norm_num [interp_eq])
  have hall := ite_le_antitone (1/20) (37/5) hmid (by norm_num [interp_eq])
  unfold cep95_from_conf
  exact hall p q hpq

/-- Values of `cep95_from_conf` at the 8 table knots, and at 0 and 1. -/
theorem cep95_knots :
    cep95_from_conf 0 = 37/5 ∧ cep95_from_conf 1 = 9/10 ∧
    cep95_from_conf (1/20) = 37/5 ∧ cep95_from_conf (17/100) = 61/10 ∧
    cep95_from_conf (43/100) = 43/10 ∧ cep95_from_conf (4/5) = 5/2 ∧
    cep95_from_conf (17/20) = 2 ∧ cep95_from_conf (9/10) = 8/5 ∧
    cep95_from_conf (19/20) = 6/5 ∧ cep95_from_conf (49/50) = 9/10 := by
  refine ⟨?_, ?_, ?_, ?_, ?_, ?_, ?_, ?_, ?_, ?_⟩ <;>
    norm_num [cep95_from_conf, interp]

set_option maxHeartbeats 2000000 in
/-- Between adjacent knots the lookup is the straight line through the two
knots. -/
theorem cep95_segments (p : ℚ) :
    (1/20 ≤ p → p ≤ 17/100 → cep95_from_conf p = interp (1/20) (37/5) (17/100) (61/10) p) ∧
    (17/100 ≤ p → p ≤ 43/100 → cep95_from_conf p = interp (17/100) (61/10) (43/100) (43/10) p) ∧
    (43/100 ≤ p → p ≤ 4/5 → cep95_from_conf p = interp (43/100) (43/10) (4/5) (5/2) p) ∧
    (4/5 ≤ p → p ≤ 17/20 → cep95_from_conf p = interp (4/5) (5/2) (17/20) 2 p) ∧
    (17/20 ≤ p → p ≤ 9/10 → cep95_from_conf p = interp (17/20) 2 (9/10) (8/5) p) ∧
    (9/10 ≤ p → p ≤ 19/20 → cep95_from_conf p = interp (9/10) (8/5) (19/20) (6/5) p) ∧
    (19/20 ≤ p → p ≤ 49/50 → cep95_from_conf p = interp (19/20) (6/5) (49/50) (9/10) p) := by
  unfold cep95_from_conf
  simp only [interp_eq]
  refine ⟨?_, ?_, ?_, ?_, ?_, ?_, ?_⟩ <;> intro h1 h2 <;> split_ifs <;>
    norm_num <;> linarith

/-- C6: `cep95_from_conf` returns 7.4 below the first knot 0.05 and 0.9
above the last knot 0.98, is exact at each of the 8 table knots (in
particular at 0, 1 and 0.80), interpolates linearly between adjacent
knots, and is monotone non-increasing. -/
theorem cep95_from_conf_spec :
    (∀ p : ℚ, p < 1/20 → cep95_from_conf p = 37/5) ∧
    (∀ p : ℚ, 49/50 < p → cep95_from_conf p = 9/10) ∧
    (cep95_from_conf 0 = 37/5 ∧ cep95_from_conf 1 = 9/10 ∧
      cep95_from_conf (1/20) = 37/5 ∧ cep95_from_conf (17/100) = 61/10 ∧
      cep95_from_conf (43/100) = 43/10 ∧ cep95_from_conf (4/5) = 5/2 ∧
      cep95_from_conf (17/20) = 2 ∧ cep95_from_conf (9/10) = 8/5 ∧
      cep95_from_conf (19/20) = 6/5 ∧ cep95_from_conf (49/50) = 9/10) ∧
    (∀ p : ℚ,
      (1/20 ≤ p → p ≤ 17/100 → cep95_from_conf p = interp (1/20) (37/5) (17/100) (61/10) p) ∧
      (17/100 ≤ p → p ≤ 43/100 → cep95_from_conf p = interp (17/100) (61/10) (43/100) (43/10) p) ∧
      (43/100 ≤ p → p ≤ 4/5 → cep95_from_conf p = interp (43/100) (43/10) (4/5) (5/2) p) ∧
      (4/5 ≤ p → p ≤ 17/20 → cep95_from_conf p = interp (4/5) (5/2) (17/20) 2 p) ∧
      (17/20 ≤ p → p ≤ 9/10 → cep95_from_conf p = interp (17/20) 2 (9/10) (8/5) p) ∧
      (9/10 ≤ p → p ≤ 19/20 → cep95_from_conf p = interp (9/10) (8/5) (19/20) (6/5) p) ∧
      (19/20 ≤ p → p ≤ 49/50 → cep95_from_conf p = interp (19/20) (6/5) (49/50) (9/10) p)) ∧
    (∀ p q : ℚ, p ≤ q → cep95_from_conf q ≤ cep95_from_conf p) := by
  refine ⟨?_, ?_, cep95_knots, cep95_segments, cep95_mono⟩
  · intro p hp
    unfold cep95_from_conf
    rw [if_pos (by linarith)]
  · intro p hp
    unfold cep95_from_conf
    rw [if_neg (by linarith), if_pos (by linarith)]

/-- Interpretation with an identity `lgamma` (and zero `log`/`log1p`),
used to separate the two `lgamma` call sites of `logpdf_student_t`. -/
def Fid : FloatFns :=
  { sqrtQ := id, log10 := fun _ => 0, lgammaQ := id,
    logQ := fun _ => 0, log1pQ := fun _ => 0, expQ := fun _ => 0 }

/-- C2: the source's `logpdf_student_t` computes its two `lgamma` terms on
the C++ *integer* quotients: at the default `v = 5` it evaluates
`lgamma(3) − lgamma(2)`, not the `lgamma(3) − lgamma(2.5)` of the
documented formula (which `logpdf_student_t_spec` renders); with an
`lgamma` that distinguishes `2` from `5/2` (here the identity) the two
differ by `1/2` at every `z`. -/
theorem logpdf_student_t_integer_division (F : FloatFns) (z : ℚ) :
    logpdf_student_t F z 5 =
      F.lgammaQ 3 - F.lgammaQ 2 - (1/2) * F.logQ (5 * PI)
        - 3 * F.log1pQ ((z * z) / 5) ∧
    logpdf_student_t_spec F z 5 =
      F.lgammaQ 3 - F.lgammaQ (5/2) - (1/2) * F.logQ (5 * PI)
        - 3 * F.log1pQ ((z * z) / 5) ∧
    logpdf_student_t Fid z 5 = 1 ∧
    logpdf_student_t_spec Fid z 5 = 1/2 := by
  have h6 : Int.tdiv (5 + 1) 2 = 3 := by decide
  have h5 : Int.tdiv (5 : ℤ) 2 = 2 := by decide
  refine ⟨?_, ?_, ?_, ?_⟩
  · unfold logpdf_student_t
    dsimp only
    rw [h6, h5]
    push_cast
    norm_num
  · unfold logpdf_student_t_spec
    push_cast
    norm_num
  · unfold logpdf_student_t
    dsimp only
    rw [h6, h5]
    simp only [Fid, id]
    push_cast
    norm_num
  · unfold logpdf_student_t_spec
    simp only [Fid, id]
    push_cast
    norm_num

/-- Anchors of the `z_vals` map are significant anchors. -/
theorem z_vals_fst_mem (F : FloatFns) (ts : TagSystem) (l : List Anchor) :
    ∀ p ∈ ts.z_vals F l, p.1 ∈ ts.get_significant_anchors l 5 := by
  intro p hp
  unfold TagSystem.z_vals TagSystem.distances at hp
  simp only [List.mem_map] at hp
  obtain ⟨q, hq, rfl⟩ := hp
  obtain ⟨a, ha, rfl⟩ := hq
  exact ha

/-- C9: when the significant-anchor set of a fix is empty the confidence
score is 0 and the error radius is the table floor 7.4; the result does
not depend on any anchor state (the statement holds for every anchor list
with empty selection and every interpretation of the float functions). -/
theorem empty_selection_floor (F : FloatFns) (ts : TagSystem) (l : List Anchor)
    (h : ts.get_significant_anchors l 5 = []) :
    ts.confidence_score F l 5 2 = 0 ∧ ts.error_radius F l = 37/5 := by
  have hz : ts.z_vals F l = [] := by
    unfold TagSystem.z_vals TagSystem.distances
    rw [h]
    rfl
  have hscore : ts.confidence_score F l 5 2 = 0 := by
    unfold TagSystem.confidence_score
    rw [if_pos hz]
  refine ⟨hscore, ?_⟩
  unfold TagSystem.error_radius
  rw [hscore]
  unfold cep95_from_conf
  norm_num

/-- Closed witness for the C9 theorem: a tag with one reading but no
candidate anchors. -/
theorem empty_selection_floor_witness :
    TagSystem.confidence_score F0
      { tag := { mac_address := "t", est_coord := (1, 0, 0),
                 rssi_readings := [("a", -50)] },
        model := PathLossModel.init } [] 5 2 = 0 ∧
    TagSystem.error_radius F0
      { tag := { mac_address := "t", est_coord := (1, 0, 0),
                 rssi_readings := [("a", -50)] },
        model := PathLossModel.init } [] = 37/5 :=
  empty_selection_floor F0 _ [] rfl

/-- C10: `confidence_score` never divides by zero.  Either the z-value map
is empty and the score is 0 by the early return, or every per-anchor
weight `1/(1 + ewma + z²)` is strictly positive for anchors with
non-negative `ewma`, so the divisor `total_weight` is strictly positive;
non-negative `ewma` is preserved by `update_health` for any smoothing
factor in `[0, 1]` (the source's `LAMBDA = 0.05` included) and holds for
the initial `ewma = 1`. -/
theorem confidence_score_total_weight_pos (F : FloatFns) (ts : TagSystem)
    (l : List Anchor) (v : ℤ) (scale : ℚ) :
    (ts.z_vals F l = [] → ts.confidence_score F l v scale = 0) ∧
    (ts.z_vals F l ≠ [] → (∀ a ∈ l, 0 ≤ a.ewma) → 0 < ts.total_weight F l) ∧
    (∀ a : Anchor, ∀ z now lam : ℚ, 0 ≤ lam → lam ≤ 1 → 0 ≤ a.ewma →
      0 ≤ (a.update_health z now lam).ewma) ∧
    (∀ mac c tstamp, (Anchor.init mac c tstamp).ewma = 1) := by
  refine ⟨?_, ?_, ?_, fun _ _ _ => rfl⟩
  · intro hz
    unfold TagSystem.confidence_score
    rw [if_pos hz]
  · intro hz hnn
    unfold TagSystem.total_weight
    apply List.sum_pos
    · intro w hw
      simp only [List.mem_map] at hw
      obtain ⟨p, hp, rfl⟩ := hw
      have hmem : p.1 ∈ l := by
        have h1 := sig_subset_filter ts l 5 p.1 (z_vals_fst_mem F ts l p hp)
        exact (List.mem_filter.mp h1).1
      have he : 0 ≤ p.1.ewma := hnn p.1 hmem
      unfold anchorWeight
      have hd : 0 < 1 + p.1.ewma + p.2 ^ 2 := by positivity
      positivity
    · intro hmap
      exact hz (List.map_eq_nil_iff.mp hmap)
  · intro a z now lam h0 h1 he
    unfold Anchor.update_health
    have hz2 : (0:ℚ) ≤ z ^ 2 := sq_nonneg z
    have : (0:ℚ) ≤ 1 - lam := by linarith
    dsimp only
    positivity

/-- Closed witness for the C10 theorem: the early-return conjunct at an
empty candidate list, and the `ewma` preservation conjunct at the source's
`LAMBDA = 1/20` on a fresh anchor. -/
theorem confidence_score_total_weight_pos_witness :
    TagSystem.confidence_score F0
      { tag := { mac_address := "t", est_coord := (1, 0, 0),
                 rssi_readings := [("a", -50)] },
        model := PathLossModel.init } [] 5 2 = 0 ∧
    0 ≤ ((Anchor.init "a" (0, 0, 0) 0).update_health 3 1 (1/20)).ewma :=
  ⟨(confidence_score_total_weight_pos F0 _ [] 5 2).1 rfl,
   (confidence_score_total_weight_pos F0
      { tag := { mac_address := "t", est_coord := (1, 0, 0),
                 rssi_readings := [("a", -50)] },
        model := PathLossModel.init } [] 5 2).2.2.1
     (Anchor.init "a" (0, 0, 0) 0) 3 1 (1/20) (by norm_num) (by norm_num)
     (by norm_num [Anchor.init])⟩

/-- The length of a trimmed push. -/
theorem pushTrim_length (l : List ℚ) (x : ℚ) :
    (pushTrim l x).length
      = if 50 < l.length + 1 then l.length else l.length + 1 := by
  unfold pushTrim
  dsimp only
  rw [apply_ite List.length]
  simp only [List.length_append, List.length_singleton, List.length_tail]
  split_ifs <;> omega

/-- A trimmed push whose result holds fewer than 5 samples started from a
window of fewer than 5 samples. -/
theorem pushTrim_lt_five (l : List ℚ) (x : ℚ)
    (h : (pushTrim l x).length < 5) : l.length < 5 := by
  rw [pushTrim_length] at h
  split_ifs at h <;> omega

/-- Sum of a constant list. -/
theorem sum_const_list (l : List ℚ) (c : ℚ) (h : ∀ x ∈ l, x = c) :
    l.sum = c * l.length := by
  induction l with
  | nil => simp
  | cons a t ih =>
    have ha : a = c := h a (List.mem_cons_self a t)
    have ht := ih (fun x hx => h x (List.mem_cons_of_mem a hx))
    simp only [List.sum_cons, List.length_cons, ha, ht]
    push_cast
    ring

/-- A constant window has population variance 0. -/
theorem varianceOf_const (l : List ℚ) (c : ℚ) (hne : l ≠ [])
    (h : ∀ x ∈ l, x = c) : varianceOf l = 0 := by
  unfold varianceOf
  dsimp only
  have h0 : l.length ≠ 0 := fun hl => hne (List.length_eq_zero.mp hl)
  have hlen : (l.length : ℚ) ≠ 0 := Nat.cast_ne_zero.mpr h0
  have hmean : l.sum / (l.length : ℚ) = c := by
    rw [sum_const_list l c h]
    field_simp
  simp only [hmean]
  have hzero : (l.map fun r => (r - c) ^ 2) = l.map fun _ => (0:ℚ) := by
    apply List.map_congr_left
    intro x hx
    rw [h x hx]
    ring
  rw [hzero]
  simp

/-- A degenerate RSSI window (5 or more samples, all identical) drives the
adapted `sigma` to `0.8 · sqrt 0 = 0`. -/
theorem sequence_step_sigma_degenerate (F : FloatFns) (s : KFState)
    (r0 n r d : ℚ) (hsq : F.sqrtQ 0 = 0)
    (hge : 5 ≤ (pushTrim s.rssi_vals r).length)
    (hconst : ∀ x ∈ pushTrim s.rssi_vals r, x = r) :
    (sequence_step F s r0 n r d).state.sigma = 0 := by
  unfold sequence_step
  dsimp only
  rw [if_pos hge]
  unfold computeRSSIStdDev
  rw [if_neg (by omega)]
  have hne : pushTrim s.rssi_vals r ≠ [] := by
    intro hnil
    rw [hnil] at hge
    simp at hge
  rw [varianceOf_const _ r hne hconst, hsq]
  ring

/-- C3 (amended): `sequence_step` leaves `sigma` unchanged only while the
RSSI window (after the push of the new sample) holds fewer than 5
samples; once it holds 5 or more, `sigma` is unconditionally set to
`0.8 · stddev(window)` — with no guard against a degenerate window — so a
window of identical samples sets `sigma` to `0.8 · sqrt 0 = 0`. -/
theorem sequence_step_sigma (F : FloatFns) (s : KFState) (r0 n r d : ℚ) :
    ((sequence_step F s r0 n r d).state.rssi_vals.length < 5 →
      (sequence_step F s r0 n r d).state.sigma = s.sigma) ∧
    (5 ≤ (pushTrim s.rssi_vals r).length →
      (sequence_step F s r0 n r d).state.sigma
        = (4/5) * F.sqrtQ (varianceOf (pushTrim s.rssi_vals r))) ∧
    (F.sqrtQ 0 = 0 → 5 ≤ (pushTrim s.rssi_vals r).length →
      (∀ x ∈ pushTrim s.rssi_vals r, x = r) →
      (sequence_step F s r0 n r d).state.sigma = 0) := by
  refine ⟨?_, ?_, ?_⟩
  · intro hlt
    unfold sequence_step at hlt ⊢
    dsimp only at hlt ⊢
    rw [if_neg (by omega)]
  · intro hge
    unfold sequence_step
    dsimp only
    rw [if_pos hge]
    unfold computeRSSIStdDev
    rw [if_neg (by omega)]
  · intro hsq hge hconst
    exact sequence_step_sigma_degenerate F s r0 n r d hsq hge hconst

/-- Runs of the Kalman filter from the initial state feeding back the
returned parameters, with constant measurement `r = −59` at distance 1
(the only transcendental calls are `log10 1` and, at the fifth step,
`sqrt 0`, both exactly 0 under `F0`). -/
def kfRun : ℕ → KFState × ℚ × ℚ
  | 0 => (KFState.init, -59, 2)
  | k+1 =>
    let prev := kfRun k
    let res := sequence_step F0 prev.1 prev.2.1 prev.2.2 (-59) 1
    (res.state, res.rssi0, res.n)

/-- C3 counterexample: after five `sequence_step`s with identical RSSI
readings the measurement noise `sigma` is exactly 0 (while it was still at
its initial 4.0 one step earlier), refuting the claim that a degenerate
window leaves `sigma` at its prior value and that `sigma > 0` after every
step. -/
theorem sequence_step_sigma_zero_counterexample :
    (kfRun 5).1.sigma = 0 ∧ (kfRun 4).1.sigma = 4 ∧
    F0.sqrtQ 0 = 0 ∧ F0.log10 1 = 0 := by
  have hwin : pushTrim (kfRun 4).1.rssi_vals (-59) = List.replicate 5 (-59) := rfl
  refine ⟨?_, rfl, rfl, rfl⟩
  exact sequence_step_sigma_degenerate F0 (kfRun 4).1 (kfRun 4).2.1 (kfRun 4).2.2 (-59) 1
    rfl (by rw [hwin]; decide)
    (fun x hx => List.eq_of_mem_replicate (hwin ▸ hx))

/-- Exact value of a single parameter update on a fresh anchor fed
`measured_rssi = 10000` at distance 1 (evaluated by rational
arithmetic). -/
theorem update_parameters_concrete_eval :
    ((Anchor.init "a" (0, 0, 0) 0).update_parameters F0 10000 1).RSSI_0
      = 482990000/906667 := by
  have hmax : max (1:ℚ) (1/1000000) = 1 := by
    rw [max_eq_left]
    norm_num
  norm_num [Anchor.update_parameters, Anchor.init, KFState.init, sequence_step,
    pushTrim, computeResidualVariance, computeRSSIStdDev, varianceOf, F0, hmax]

/-- C4 (amended): `update_parameters` installs the raw Kalman output with
no clamping or rejection: the new `(RSSI_0, n)` and filter state are
exactly what `sequence_step` returns; in particular a fresh anchor fed
`measured_rssi = 10000` at distance 1 ends with the positive
`RSSI_0 = 482990000/906667 ≈ 532.7`. -/
theorem update_parameters_unclamped (F : FloatFns) (a : Anchor) (r d : ℚ) :
    ((a.update_parameters F r d).RSSI_0
        = (sequence_step F a.kalman a.RSSI_0 a.n r d).rssi0 ∧
      (a.update_parameters F r d).n
        = (sequence_step F a.kalman a.RSSI_0 a.n r d).n ∧
      (a.update_parameters F r d).kalman
        = (sequence_step F a.kalman a.RSSI_0 a.n r d).state ∧
      (a.update_parameters F r d).ewma = a.ewma ∧
      (a.update_parameters F r d).last_seen = a.last_seen) ∧
    ((Anchor.init "a" (0, 0, 0) 0).update_parameters F0 10000 1).RSSI_0
      = 482990000/906667 :=
  ⟨⟨rfl, rfl, rfl, rfl, rfl⟩, update_parameters_concrete_eval⟩

/-- C4 counterexample: after a single `update_parameters` call with a
finite measured RSSI (10000 dBm at distance 1, from the default anchor
state) the anchor's `rssi0` is strictly positive — no clamp keeps it
non-positive.  (`F0.log10 1 = 0` is the only transcendental value this
run consults.) -/
theorem update_parameters_positive_rssi0_counterexample :
    0 < ((Anchor.init "a" (0, 0, 0) 0).update_parameters F0 10000 1).RSSI_0 ∧
    F0.log10 1 = 0 := by
  refine ⟨?_, rfl⟩
  rw [update_parameters_concrete_eval]
  norm_num

/-- C7: while both adaptation windows hold fewer than 5 samples (sizes
taken at the adaptation checks, i.e. after the RSSI push) `Q` and `sigma`
are unchanged by `sequence_step`; whenever the residual-window adaptation
fires, `Q[1][1] = Q[0][0]/100` afterwards, and that relation, once
established, persists through every further step; the off-diagonal
entries of `Q` are never written (hence stay zero). -/
theorem kalman_adaptation_gate (F : FloatFns) (s : KFState) (r0 n r d : ℚ) :
    ((sequence_step F s r0 n r d).state.rssi_vals.length < 5 →
     (sequence_step F s r0 n r d).state.residuals.length < 5 →
      (sequence_step F s r0 n r d).state.Q00 = s.Q00 ∧
      (sequence_step F s r0 n r d).state.Q01 = s.Q01 ∧
      (sequence_step F s r0 n r d).state.Q10 = s.Q10 ∧
      (sequence_step F s r0 n r d).state.Q11 = s.Q11 ∧
      (sequence_step F s r0 n r d).state.sigma = s.sigma) ∧
    (5 ≤ s.residuals.length →
      (sequence_step F s r0 n r d).state.Q11
        = (sequence_step F s r0 n r d).state.Q00 / 100) ∧
    (s.Q11 = s.Q00 / 100 →
      (sequence_step F s r0 n r d).state.Q11
        = (sequence_step F s r0 n r d).state.Q00 / 100) ∧
    ((sequence_step F s r0 n r d).state.Q01 = s.Q01 ∧
     (sequence_step F s r0 n r d).state.Q10 = s.Q10) := by
  refine ⟨?_, ?_, ?_, rfl, rfl⟩
  · intro h1 h2
    unfold sequence_step at h1 h2 ⊢
    dsimp only at h1 h2 ⊢
    have h2' := pushTrim_lt_five _ _ h2
    refine ⟨?_, rfl, rfl, ?_, ?_⟩
    · rw [if_neg (by omega)]
    · rw [if_neg (by omega)]
    · rw [if_neg (by omega)]
  · intro h
    unfold sequence_step
    dsimp only
    rw [if_pos h, if_pos h]
    ring
  · intro h
    unfold sequence_step
    dsimp only
    split_ifs with hc
    · ring
    · exact h

/-- Closed witness for the C7 theorem: the very first step from the
initial state (both windows below the threshold) leaves `Q` and `sigma`
at their initial values. -/
theorem kalman_adaptation_gate_witness :
    ((sequence_step F0 KFState.init (-59) 2 (-50) 1).state.Q00 = KFState.init.Q00 ∧
      (sequence_step F0 KFState.init (-59) 2 (-50) 1).state.Q01 = KFState.init.Q01 ∧
      (sequence_step F0 KFState.init (-59) 2 (-50) 1).state.Q10 = KFState.init.Q10 ∧
      (sequence_step F0 KFState.init (-59) 2 (-50) 1).state.Q11 = KFState.init.Q11 ∧
      (sequence_step F0 KFState.init (-59) 2 (-50) 1).state.sigma = KFState.init.sigma) :=
  (kalman_adaptation_gate F0 KFState.init (-59) 2 (-50) 1).1 (by decide) (by decide)

/-- Closed witness for the C3 theorem: at the first step from the initial
state the RSSI window holds a single sample, so `sigma` is unchanged; and
with five identical samples already in the window the adapted `sigma` is
0. -/
theorem sequence_step_sigma_witness :
    (sequence_step F0 KFState.init (-59) 2 (-50) 1).state.sigma
        = KFState.init.sigma ∧
    (sequence_step F0 { KFState.init with rssi_vals := [-59, -59, -59, -59] }
        (-59) 2 (-59) 1).state.sigma = 0 := by
  have hrep : pushTrim [-59, -59, -59, -59] (-59) = List.replicate 5 (-59) := rfl
  constructor
  · exact (sequence_step_sigma F0 KFState.init (-59) 2 (-50) 1).1 (by decide)
  · exact (sequence_step_sigma F0 _ (-59) 2 (-59) 1).2.2 rfl
      (by rw [hrep]; decide)
      (fun x hx => List.eq_of_mem_replicate (hrep ▸ hx))

/-! ### Orchestrator characterization -/

/-- The per-anchor effect of `update_anchors_from_tag_data` on a fix with a
non-empty RSSI map, given the MAC addresses `sigMacs` of the significant
anchors of the fix: a significant anchor first receives the Kalman
parameter update, and then — only if it passes the admission gate — a
health update whose z-score is computed from the anchor's
*post-parameter-update* `(RSSI_0, n)`; every other anchor is untouched. -/
def perAnchorAction (F : FloatFns) (tag : Tag) (model : PathLossModel)
    (sigMacs : List String) (now deltaR T_vis : ℚ) (a : Anchor) : Anchor :=
  if a.mac_address ∈ sigMacs then
    let a1 := a.update_parameters F (rssiOf tag.rssi_readings a.mac_address)
      (R3_distance F a.coord tag.est_coord)
    if admissionGate tag.rssi_readings now deltaR T_vis (maxRssi tag.rssi_readings) a1 then
      a1.update_health (model.z F (rssiOf tag.rssi_readings a1.mac_address)
        a1.RSSI_0 a1.n (R3_distance F a1.coord tag.est_coord)) now (1/20)
    else a1
  else a

/-- Ordered insertion commutes with a MAC-preserving map of the anchors,
because the comparator only reads the MAC address. -/
theorem orderedInsert_map (d : List (String × ℚ)) (g : Anchor → Anchor)
    (hmac : ∀ a, (g a).mac_address = a.mac_address) (a : Anchor) :
    ∀ l : List Anchor,
      List.orderedInsert (fun a1 a2 => sortKey d a2 ≤ sortKey d a1) (g a) (l.map g)
        = (List.orderedInsert (fun a1 a2 => sortKey d a2 ≤ sortKey d a1) a l).map g := by
  intro l
  induction l with
  | nil => rfl
  | cons b t ih =>
    simp only [List.map_cons, List.orderedInsert]
    have hkey : sortKey d (g b) = sortKey d b := by
      unfold sortKey
      rw [hmac]
    have hkey2 : sortKey d (g a) = sortKey d a := by
      unfold sortKey
      rw [hmac]
    by_cases h : sortKey d b ≤ sortKey d a
    · rw [if_pos (by rw [hkey, hkey2]; exact h), if_pos h]
      simp
    · rw [if_neg (by rw [hkey, hkey2]; exact h), if_neg h]
      simp only [List.map_cons, ih]

/-- Insertion sort commutes with a MAC-preserving map of the anchors. -/
theorem insertionSort_map (d : List (String × ℚ)) (g : Anchor → Anchor)
    (hmac : ∀ a, (g a).mac_address = a.mac_address) :
    ∀ l : List Anchor,
      List.insertionSort (fun a1 a2 => sortKey d a2 ≤ sortKey d a1) (l.map g)
        = (List.insertionSort (fun a1 a2 => sortKey d a2 ≤ sortKey d a1) l).map g := by
  intro l
  induction l with
  | nil => rfl
  | cons b t ih =>
    simp only [List.map_cons, List.insertionSort, ih]
    exact orderedInsert_map d g hmac b _

/-- Significant-anchor selection commutes with a map of the anchors that
preserves the two fields selection reads (MAC address and `ewma`). -/
theorem get_significant_anchors_map (ts : TagSystem) (g : Anchor → Anchor)
    (hmac : ∀ a, (g a).mac_address = a.mac_address)
    (hewma : ∀ a, (g a).ewma = a.ewma) (l : List Anchor) (n : ℕ) :
    ts.get_significant_anchors (l.map g) n
      = (ts.get_significant_anchors l n).map g := by
  rw [sig_eq, sig_eq]
  have hfilter : (l.map g).filter
        (sigCond ts.tag.rssi_readings (maxRssi ts.tag.rssi_readings))
      = (l.filter (sigCond ts.tag.rssi_readings (maxRssi ts.tag.rssi_readings))).map g := by
    rw [List.filter_map]
    congr 1
    apply List.filter_congr
    intro a _
    show sigCond _ _ (g a) = sigCond _ _ a
    unfold sigCond
    rw [hmac, hewma]
  rw [hfilter, insertionSort_map ts.tag.rssi_readings g hmac, List.map_take]

/-- The z-value map, written as one map over the significant anchors. -/
theorem z_vals_eq (F : FloatFns) (ts : TagSystem) (l : List Anchor) :
    ts.z_vals F l = (ts.get_significant_anchors l 5).map (fun a =>
      (a, ts.model.z F (rssiOf ts.tag.rssi_readings a.mac_address)
        a.RSSI_0 a.n (R3_distance F a.coord ts.tag.est_coord))) := by
  unfold TagSystem.z_vals TagSystem.distances
  rw [List.map_map]
  rfl

/-- Characterization of the orchestrator on a fix whose anchors carry
pairwise distinct MAC addresses: it acts on every anchor independently, by
`perAnchorAction` with the significant-MAC set of the candidate list
(empty RSSI map: no anchor is touched). -/
theorem update_anchors_characterization (F : FloatFns) (l : List Anchor)
    (tag : Tag) (model : PathLossModel) (now deltaR T_vis : ℚ)
    (hnodup : (l.map Anchor.mac_address).Nodup) :
    update_anchors_from_tag_data F l tag model now deltaR T_vis
      = if tag.rssi_readings = [] then l
        else l.map (perAnchorAction F tag model
          ((TagSystem.mk tag model).get_significant_anchors l 5 |>.map Anchor.mac_address)
          now deltaR T_vis) := by
  unfold update_anchors_from_tag_data
  dsimp only
  split_ifs with hne
  · rfl
  · rw [List.map_map]
    apply List.map_congr_left
    intro a ha
    set ts : TagSystem := TagSystem.mk tag model with hts
    set sigM := (ts.get_significant_anchors l 5).map Anchor.mac_address with hsigM
    set f : Anchor → Anchor := fun a =>
      if a.mac_address ∈ sigM then
        a.update_parameters F (rssiOf tag.rssi_readings a.mac_address)
          (R3_distance F a.coord tag.est_coord)
      else a with hf
    have hfmac : ∀ b, (f b).mac_address = b.mac_address := by
      intro b
      rw [hf]
      dsimp only
      split_ifs <;> rfl
    have hfewma : ∀ b, (f b).ewma = b.ewma := by
      intro b
      rw [hf]
      dsimp only
      split_ifs <;> rfl
    have hsig1 : ts.get_significant_anchors (l.map f) 5
        = (ts.get_significant_anchors l 5).map f :=
      get_significant_anchors_map ts f hfmac hfewma l 5
    have hz : ts.z_vals F (l.map f)
        = ((ts.get_significant_anchors l 5).map f).map (fun s =>
            (s, ts.model.z F (rssiOf ts.tag.rssi_readings s.mac_address)
              s.RSSI_0 s.n (R3_distance F s.coord ts.tag.est_coord))) := by
      rw [z_vals_eq, hsig1]
    show (match (ts.z_vals F (l.map f)).find?
          (fun p => p.1.mac_address == (f a).mac_address) with
        | none => f a
        | some p =>
          if admissionGate tag.rssi_readings now deltaR T_vis
              (maxRssi tag.rssi_readings) (f a) then
            (f a).update_health p.2 now (1/20)
          else f a)
      = perAnchorAction F tag model sigM now deltaR T_vis a
    rw [hz, List.map_map, List.find?_map]
    have hpred : ((fun p : Anchor × ℚ => p.1.mac_address == (f a).mac_address) ∘
          ((fun s : Anchor =>
            (s, ts.model.z F (rssiOf ts.tag.rssi_readings s.mac_address)
              s.RSSI_0 s.n (R3_distance F s.coord ts.tag.est_coord))) ∘ f))
        = fun b : Anchor => b.mac_address == a.mac_address := by
      funext b
      simp only [Function.comp]
      rw [hfmac a, hfmac b]
    rw [hpred]
    by_cases hmem : a.mac_address ∈ sigM
    · have hex : ∃ b ∈ ts.get_significant_anchors l 5,
          b.mac_address = a.mac_address := by
        rw [hsigM] at hmem
        obtain ⟨b, hb, hbeq⟩ := List.mem_map.mp hmem
        exact ⟨b, hb, hbeq⟩
      rcases hfind : (ts.get_significant_anchors l 5).find?
          (fun b => b.mac_address == a.mac_address) with _ | b
      · obtain ⟨b, hb, hbeq⟩ := hex
        have := List.find?_eq_none.mp hfind b hb
        simp [hbeq] at this
      · have hbsig := List.mem_of_find?_eq_some hfind
        have hbmac : b.mac_address = a.mac_address := by
          have := List.find?_some hfind
          simpa using this
        have hbl : b ∈ l :=
          (List.mem_filter.mp (sig_subset_filter ts l 5 b hbsig)).1
        have hba : b = a := List.inj_on_of_nodup_map hnodup hbl ha hbmac
        subst hba
        unfold perAnchorAction
        rw [if_pos hmem]
        have hfa : f b = b.update_parameters F
            (rssiOf tag.rssi_readings b.mac_address)
            (R3_distance F b.coord tag.est_coord) := by
          rw [hf]
          dsimp only
          rw [if_pos hmem]
        rw [hfind]
        simp only [Option.map_some', Function.comp]
        rw [hfa]
    · have hfind : (ts.get_significant_anchors l 5).find?
          (fun b => b.mac_address == a.mac_address) = none := by
        apply List.find?_eq_none.mpr
        intro b hb
        simp only [beq_iff_eq]
        intro hbeq
        exact hmem (hsigM ▸ List.mem_map.mpr ⟨b, hb, hbeq⟩)
      rw [hfind]
      unfold perAnchorAction
      rw [if_neg hmem]
      have hfa : f a = a := by
        rw [hf]
        dsimp only
        rw [if_neg hmem]
      rw [hfa]
      rfl

/-- C1 (amended): on a candidate list with pairwise-distinct MAC
addresses the orchestrator acts anchor-wise by `perAnchorAction`, and the
health update of an admitted significant anchor uses the z-score computed
from the anchor's *post-parameter-update* `(RSSI_0, n)` (the orchestrator
recomputes `z_vals` after the parameter updates of the same fix), not the
pre-update z-scores the claim asserts. -/
theorem update_anchors_health_z_is_post_update (F : FloatFns) (l : List Anchor)
    (tag : Tag) (model : PathLossModel) (now deltaR T_vis : ℚ)
    (hnodup : (l.map Anchor.mac_address).Nodup) :
    update_anchors_from_tag_data F l tag model now deltaR T_vis
      = (if tag.rssi_readings = [] then l
        else l.map (perAnchorAction F tag model
          ((TagSystem.mk tag model).get_significant_anchors l 5 |>.map Anchor.mac_address)
          now deltaR T_vis)) ∧
    (∀ sigMacs : List String, ∀ a : Anchor, a.mac_address ∈ sigMacs →
      admissionGate tag.rssi_readings now deltaR T_vis (maxRssi tag.rssi_readings)
        (a.update_parameters F (rssiOf tag.rssi_readings a.mac_address)
          (R3_distance F a.coord tag.est_coord)) = true →
      perAnchorAction F tag model sigMacs now deltaR T_vis a
        = (a.update_parameters F (rssiOf tag.rssi_readings a.mac_address)
            (R3_distance F a.coord tag.est_coord)).update_health
            (model.z F (rssiOf tag.rssi_readings a.mac_address)
              (a.update_parameters F (rssiOf tag.rssi_readings a.mac_address)
                (R3_distance F a.coord tag.est_coord)).RSSI_0
              (a.update_parameters F (rssiOf tag.rssi_readings a.mac_address)
                (R3_distance F a.coord tag.est_coord)).n
              (R3_distance F
                (a.update_parameters F (rssiOf tag.rssi_readings a.mac_address)
                  (R3_distance F a.coord tag.est_coord)).coord tag.est_coord))
            now (1/20)) := by
  constructor
  · exact update_anchors_characterization F l tag model now deltaR T_vis hnodup
  · intro sigMacs a hmem hgate
    unfold perAnchorAction
    rw [if_pos hmem]
    dsimp only
    rw [if_pos hgate]
    rfl

/-- The single-anchor fix used by the concrete orchestrator runs: tag at
`(1, 0, 0)` hearing anchor `"a"` at −50 dBm. -/
def tagT : Tag :=
  { mac_address := "t", est_coord := (1, 0, 0), rssi_readings := [("a", -50)] }

/-- On the `tagT` fix a single fresh anchor `"a"` at the origin (any
initial timestamp) is selected as significant. -/
theorem sig_singleton_eval (t : ℚ) :
    (TagSystem.mk tagT PathLossModel.init).get_significant_anchors
      [Anchor.init "a" (0, 0, 0) t] 5 = [Anchor.init "a" (0, 0, 0) t] := by
  have hc : sigCond tagT.rssi_readings (maxRssi tagT.rssi_readings)
      (Anchor.init "a" (0, 0, 0) t) = true := by
    unfold sigCond lookupRssi maxRssi floatLowest tagT Anchor.init
    norm_num
  rw [sig_eq]
  simp only [List.filter_cons, List.filter_nil, hc, if_true]
  simp only [List.insertionSort, List.orderedInsert, List.take]

/-- Closed witness for the C1 theorem: the characterization applied to the
`tagT` fix with one fresh anchor. -/
theorem update_anchors_health_z_is_post_update_witness :
    update_anchors_from_tag_data F0 [Anchor.init "a" (0, 0, 0) 0] tagT
        PathLossModel.init 1000 12 6000
      = (if tagT.rssi_readings = [] then [Anchor.init "a" (0, 0, 0) 0]
        else [Anchor.init "a" (0, 0, 0) 0].map (perAnchorAction F0 tagT PathLossModel.init
          ((TagSystem.mk tagT PathLossModel.init).get_significant_anchors
            [Anchor.init "a" (0, 0, 0) 0] 5 |>.map Anchor.mac_address)
          1000 12 6000)) :=
  (update_anchors_health_z_is_post_update F0 [Anchor.init "a" (0, 0, 0) 0] tagT
    PathLossModel.init 1000 12 6000 (by decide)).1

/-- Exact health value produced by the orchestrator on the `tagT` fix for a
fresh admitted anchor: the z-score inside the square is the *post-update*
one, built from the updated `RSSI_0 = −159040050/2720001`. -/
theorem c1_eval :
    (update_anchors_from_tag_data F0 [Anchor.init "a" (0, 0, 0) 0] tagT
      PathLossModel.init 1000 12 6000).map Anchor.ewma
      = [(1/20) * ((-50 - (-159040050/2720001 : ℚ))/4)^2 + (19/20) * 1] := by
  rw [update_anchors_characterization F0 _ tagT PathLossModel.init 1000 12 6000 (by decide)]
  rw [if_neg (by decide)]
  simp only [List.map_cons, List.map_nil]
  rw [sig_singleton_eval 0]
  unfold perAnchorAction
  rw [if_pos (by simp)]
  have hgate : admissionGate tagT.rssi_readings 1000 12 6000 (maxRssi tagT.rssi_readings)
      ((Anchor.init "a" (0, 0, 0) 0).update_parameters F0
        (rssiOf tagT.rssi_readings (Anchor.init "a" (0, 0, 0) 0).mac_address)
        (R3_distance F0 (Anchor.init "a" (0, 0, 0) 0).coord tagT.est_coord)) = true := by
    unfold admissionGate Anchor.update_parameters Anchor.init rssiOf lookupRssi tagT maxRssi floatLowest
    norm_num
  rw [if_pos hgate]
  unfold Anchor.update_health
  simp only [List.cons.injEq, and_true]
  norm_num [Anchor.update_parameters, Anchor.init, KFState.init, sequence_step,
    pushTrim, computeResidualVariance, computeRSSIStdDev, varianceOf, F0,
    rssiOf, lookupRssi, tagT, R3_distance, PathLossModel.z, PathLossModel.mu,
    PathLossModel.init, maxRssi, floatLowest]

/-- C1 counterexample: on the `tagT` fix with one fresh admitted anchor the
resulting `ewma` is *not* the value `77/64` that a health update with the
pre-update z-score (which is `9/4`, as the second conjunct certifies)
would produce — the orchestrator uses the post-update z-score.  Under `F0`
the run only consults `sqrt 1 = 1` and `log10 1 = 0`, the true float
values. -/
theorem update_anchors_pre_update_z_counterexample :
    (update_anchors_from_tag_data F0 [Anchor.init "a" (0, 0, 0) 0] tagT
      PathLossModel.init 1000 12 6000).map Anchor.ewma ≠ [77/64] ∧
    ((Anchor.init "a" (0, 0, 0) 0).update_health
      (PathLossModel.init.z F0 (-50) (Anchor.init "a" (0, 0, 0) 0).RSSI_0
        (Anchor.init "a" (0, 0, 0) 0).n (R3_distance F0 (0, 0, 0) (1, 0, 0))) 1000 (1/20)).ewma
      = 77/64 := by
  constructor
  · rw [c1_eval]
    simp only [ne_eq, List.cons.injEq, and_true]
    norm_num
  · norm_num [Anchor.update_health, Anchor.init, PathLossModel.z, PathLossModel.mu,
      PathLossModel.init, R3_distance, F0]

/-- C8 (amended): on a candidate list with pairwise-distinct MAC
addresses, an empty RSSI map mutates nothing; otherwise the orchestrator
is the anchor-wise `perAnchorAction`, under which anchors whose MAC is not
among the significant MACs are returned unchanged, every significant
anchor appears in the fix's RSSI map, and an anchor's `ewma`/`last_seen`
can only change if it is significant AND passes the admission gate — but
a significant anchor failing the gate still receives the Kalman parameter
update. -/
theorem update_anchors_frame (F : FloatFns) (l : List Anchor)
    (tag : Tag) (model : PathLossModel) (now deltaR T_vis : ℚ)
    (hnodup : (l.map Anchor.mac_address).Nodup) :
    ∀ sigM : List String,
      sigM = ((TagSystem.mk tag model).get_significant_anchors l 5 |>.map Anchor.mac_address) →
      (tag.rssi_readings = [] →
        update_anchors_from_tag_data F l tag model now deltaR T_vis = l) ∧
      (tag.rssi_readings ≠ [] →
        update_anchors_from_tag_data F l tag model now deltaR T_vis
          = l.map (perAnchorAction F tag model sigM now deltaR T_vis)) ∧
      (∀ a : Anchor, a.mac_address ∉ sigM →
        perAnchorAction F tag model sigM now deltaR T_vis a = a) ∧
      (∀ a ∈ (TagSystem.mk tag model).get_significant_anchors l 5,
        (lookupRssi tag.rssi_readings a.mac_address).isSome = true) ∧
      (∀ a : Anchor,
        ((perAnchorAction F tag model sigM now deltaR T_vis a).ewma ≠ a.ewma ∨
         (perAnchorAction F tag model sigM now deltaR T_vis a).last_seen ≠ a.last_seen) →
        a.mac_address ∈ sigM ∧
        admissionGate tag.rssi_readings now deltaR T_vis (maxRssi tag.rssi_readings)
          (a.update_parameters F (rssiOf tag.rssi_readings a.mac_address)
            (R3_distance F a.coord tag.est_coord)) = true) := by
  intro sigM hsigM
  subst hsigM
  have hchar := update_anchors_characterization F l tag model now deltaR T_vis hnodup
  refine ⟨?_, ?_, ?_, ?_, ?_⟩
  · intro h
    rw [hchar, if_pos h]
  · intro h
    rw [hchar, if_neg h]
  · intro a hmem
    unfold perAnchorAction
    rw [if_neg hmem]
  · intro a ha
    have hf := (List.mem_filter.mp
      (sig_subset_filter (TagSystem.mk tag model) l 5 a ha)).2
    obtain ⟨⟨r, hr, _⟩, _⟩ := (sigCond_iff _ _ _).mp hf
    rw [hr]
    rfl
  · intro a hne
    by_cases hmem : a.mac_address ∈
        ((TagSystem.mk tag model).get_significant_anchors l 5 |>.map Anchor.mac_address)
    · refine ⟨hmem, ?_⟩
      by_contra hgate
      have hgate' : admissionGate tag.rssi_readings now deltaR T_vis
          (maxRssi tag.rssi_readings)
          (a.update_parameters F (rssiOf tag.rssi_readings a.mac_address)
            (R3_distance F a.coord tag.est_coord)) = false := by
        revert hgate
        cases admissionGate tag.rssi_readings now deltaR T_vis
          (maxRssi tag.rssi_readings)
          (a.update_parameters F (rssiOf tag.rssi_readings a.mac_address)
            (R3_distance F a.coord tag.est_coord))
        · intro _
          rfl
        · intro hgate
          exact absurd rfl hgate
      have hact : perAnchorAction F tag model
          ((TagSystem.mk tag model).get_significant_anchors l 5 |>.map Anchor.mac_address)
          now deltaR T_vis a
          = a.update_parameters F (rssiOf tag.rssi_readings a.mac_address)
            (R3_distance F a.coord tag.est_coord) := by
        unfold perAnchorAction
        rw [if_pos hmem]
        dsimp only
        rw [hgate']
        simp
      rw [hact] at hne
      rcases hne with hne | hne
      · exact hne rfl
      · exact hne rfl
    · have hact : perAnchorAction F tag model
          ((TagSystem.mk tag model).get_significant_anchors l 5 |>.map Anchor.mac_address)
          now deltaR T_vis a = a := by
        unfold perAnchorAction
        rw [if_neg hmem]
      rw [hact] at hne
      rcases hne with hne | hne <;> exact absurd rfl hne

/-- Closed witness for the C8 theorem: with no candidate anchors the
significant set is empty and a fresh anchor is left unchanged by the
per-anchor action. -/
theorem update_anchors_frame_witness :
    perAnchorAction F0 tagT PathLossModel.init
      ((TagSystem.mk tagT PathLossModel.init).get_significant_anchors
        ([] : List Anchor) 5 |>.map Anchor.mac_address)
      1000 12 6000 (Anchor.init "a" (0, 0, 0) 0) = Anchor.init "a" (0, 0, 0) 0 :=
  ((update_anchors_frame F0 [] tagT PathLossModel.init 1000 12 6000 (by decide)
    _ rfl).2.2.1) (Anchor.init "a" (0, 0, 0) 0) (by simp [TagSystem.get_significant_anchors])

/-- The admission gate rejects the stale anchor of the C8 counterexample
(`last_seen = 1`, `now = 10000`, `T_vis = 6000`). -/
theorem c8_gate_false :
    admissionGate tagT.rssi_readings 10000 12 6000 (maxRssi tagT.rssi_readings)
      ((Anchor.init "a" (0, 0, 0) 1).update_parameters F0
        (rssiOf tagT.rssi_readings (Anchor.init "a" (0, 0, 0) 1).mac_address)
        (R3_distance F0 (Anchor.init "a" (0, 0, 0) 1).coord tagT.est_coord)) = false := by
  unfold admissionGate Anchor.update_parameters Anchor.init rssiOf lookupRssi tagT maxRssi floatLowest
  norm_num

/-- The orchestrator on the stale anchor of the C8 counterexample: the
admission gate fails, so no health update happens, but the Kalman
parameter update is applied all the same. -/
theorem c8_eval :
    update_anchors_from_tag_data F0 [Anchor.init "a" (0, 0, 0) 1] tagT
      PathLossModel.init 10000 12 6000
      = [(Anchor.init "a" (0, 0, 0) 1).update_parameters F0
          (rssiOf tagT.rssi_readings (Anchor.init "a" (0, 0, 0) 1).mac_address)
          (R3_distance F0 (Anchor.init "a" (0, 0, 0) 1).coord tagT.est_coord)] := by
  rw [update_anchors_characterization F0 _ tagT PathLossModel.init 10000 12 6000 (by decide)]
  rw [if_neg (by decide)]
  simp only [List.map_cons, List.map_nil]
  rw [sig_singleton_eval 1]
  unfold perAnchorAction
  rw [if_pos (by simp)]
  simp only [c8_gate_false, Bool.false_eq_true, if_false]

/-- C8 counterexample: an anchor that appears in the fix's RSSI map and is
significant but fails the admission gate (time since last seen
9999 > T_vis = 6000) is still mutated by the orchestrator — its Kalman
state receives the parameter update — refuting the claim that only
anchors passing the admission gates are mutated. -/
theorem update_anchors_param_update_not_gated_counterexample :
    admissionGate tagT.rssi_readings 10000 12 6000 (maxRssi tagT.rssi_readings)
      ((Anchor.init "a" (0, 0, 0) 1).update_parameters F0
        (rssiOf tagT.rssi_readings (Anchor.init "a" (0, 0, 0) 1).mac_address)
        (R3_distance F0 (Anchor.init "a" (0, 0, 0) 1).coord tagT.est_coord)) = false ∧
    update_anchors_from_tag_data F0 [Anchor.init "a" (0, 0, 0) 1] tagT
      PathLossModel.init 10000 12 6000 ≠ [Anchor.init "a" (0, 0, 0) 1] := by
  refine ⟨c8_gate_false, ?_⟩
  rw [c8_eval]
  intro h
  have h1 := List.head_eq_of_cons_eq h
  have h2 := congrArg (fun a : Anchor => a.kalman.rssi_vals) h1
  simp only at h2
  have h3 : ((Anchor.init "a" (0, 0, 0) 1).update_parameters F0
      (rssiOf tagT.rssi_readings (Anchor.init "a" (0, 0, 0) 1).mac_address)
      (R3_distance F0 (Anchor.init "a" (0, 0, 0) 1).coord tagT.est_coord)).kalman.rssi_vals
      = [rssiOf tagT.rssi_readings (Anchor.init "a" (0, 0, 0) 1).mac_address] := rfl
  have h4 : (Anchor.init "a" (0, 0, 0) 1).kalman.rssi_vals = [] := rfl
  rw [h3, h4] at h2
  exact List.cons_ne_nil _ _ h2

/-- Closed witness for the C6 theorem: monotonicity instantiated at
`1/4 ≤ 1/2`. -/
theorem cep95_from_conf_spec_witness :
    cep95_from_conf (1/2) ≤ cep95_from_conf (1/4) :=
  cep95_from_conf_spec.2.2.2.2 (1/4) (1/2) (by norm_num)

end BLE
